import Mathlib

/-!
Shallow embedding of the global-asset collection and ranking pipeline of the
repository (Go sources: stock_fmp_global.go, the "screener" variant, and the
batch-endpoint variant file defining GetMajorGlobalStocks).  Go float64 values
are modelled as exact rationals; Go strings as Lean strings.  Both source
files are embedded where they differ: namespace Screener holds the functions
of stock_fmp_global.go, namespace Batch the functions of the batch variant.
-/

set_option maxRecDepth 4000

/-! Concrete fixtures used by the claim theorems and witnesses. -/

/-! Claim theorems. -/

/-! Value lemmas for the batch-variant listing priorities. -/

/-! Fixtures and lemmas for the final combine step. -/

/-! Branch lemmas for the batch market-cap reconciliation. -/

/-! Fixtures for the batch-fetcher claims. -/

/-! Lemmas for the JSON string-encoding claims. -/

/-! Definitions (shallow embedding of the source). -/

/-- Go strings.ToUpper restricted to ASCII (all inputs relevant to the
pipeline's comparisons are ASCII). -/
def strToUpper (s : String) : String := ⟨s.data.map Char.toUpper⟩

/-- Go strings.ToLower restricted to ASCII. -/
def strToLower (s : String) : String := ⟨s.data.map Char.toLower⟩

/-- Suffix test on char lists; empty pattern is always a suffix. -/
def listEndsWith (l p : List Char) : Bool := l.drop (l.length - p.length) == p

/-- Go strings.HasSuffix. -/
def strEndsWith (s t : String) : Bool := listEndsWith s.data t.data

/-- Substring occurrence test on char lists (Go strings.Contains semantics):
the pattern occurs starting at some position of the text. -/
def listContains (l sub : List Char) : Bool :=
  (List.range (l.length + 1)).any (fun i => (l.drop i).take sub.length == sub)

/-- Go strings.Contains. -/
def strContainsStr (s t : String) : Bool := listContains s.data t.data

/-- Go struct FMPStockScreener (fields used by the pipeline). -/
structure FMPStockScreener where
  symbol : String
  companyName : String
  marketCap : ℚ
  sector : String
  industry : String
  beta : ℚ
  price : ℚ
  volume : ℚ
  exchange : String
  exchangeShortName : String
  country : String
  isEtf : Bool
  isActivelyTrading : Bool
deriving DecidableEq

/-- Go struct FMPQuote.  The Go field Open is named openPrice here because
open is a Lean keyword. -/
structure FMPQuote where
  symbol : String
  name : String
  price : ℚ
  changesPercentage : ℚ
  change : ℚ
  marketCap : ℚ
  volume : ℚ
  openPrice : ℚ
  previousClose : ℚ
  exchange : String
  sharesOutstanding : ℚ
deriving DecidableEq

/-- Go struct FMPCommodity. -/
structure FMPCommodity where
  symbol : String
  name : String
  price : ℚ
  changesPercentage : ℚ
  change : ℚ
  previousClose : ℚ
  exchange : String
deriving DecidableEq

/-- Go struct FMPCompanyProfile. -/
structure FMPCompanyProfile where
  symbol : String
  companyName : String
  image : String
  price : ℚ
  beta : ℚ
  volAvg : ℚ
  mktCap : ℚ
  industry : String
  sector : String
  country : String
  exchange : String
  website : String
  description : String
deriving DecidableEq

/-- Go struct FMPBatchMarketCap (batch market-capitalization endpoint row). -/
structure FMPBatchMarketCap where
  symbol : String
  date : String
  marketCap : ℚ
deriving DecidableEq

/-- Go struct AssetData, the canonical record flowing to saveToJSON. -/
structure AssetData where
  ticker : String
  name : String
  marketCap : ℚ
  currentPrice : ℚ
  previousClose : ℚ
  percentageChange : ℚ
  volume : ℚ
  primaryExchange : String
  country : String
  sector : String
  industry : String
  assetType : String
  image : String
deriving DecidableEq

/-- Go func isAlphaNumeric: ASCII letter or digit test (byte ranges in Go;
identical on the ASCII characters that occur at word boundaries). -/
def isAlphaNumeric (c : Char) : Bool :=
  ('A' ≤ c && c ≤ 'Z') || ('a' ≤ c && c ≤ 'z') || ('0' ≤ c && c ≤ '9')

/-- Go func containsWord: case-insensitive whole-word search.  The Go loop
scans every occurrence of the word and succeeds when one occurrence has a
non-alphanumeric (or absent) character on each side; this is equivalent to
the existential over match positions used here (positions are over runes
rather than bytes, which agrees for the ASCII marker words the pipeline
uses). -/
def containsWord (text word : String) : Bool :=
  let textUpper := (strToUpper text).data
  let wordUpper := (strToUpper word).data
  (List.range (textUpper.length + 1)).any (fun pos =>
    ((textUpper.drop pos).take wordUpper.length == wordUpper) &&
    (pos == 0 || !isAlphaNumeric (textUpper.getD (pos - 1) ' ')) &&
    (pos + wordUpper.length == textUpper.length ||
      !isAlphaNumeric (textUpper.getD (pos + wordUpper.length) ' ')))

/-- Association lookup mirroring a Go map literal (used for the fallback
exchange-rate tables; Go map lookup ignores order, the tables have distinct
keys). -/
def lookupRate : List (String × ℚ) → String → Option ℚ
  | [], _ => none
  | (k, v) :: rest, c => if k = c then some v else lookupRate rest c

/-- Go func isRealCommodity (identical in both source files): whitelist of
essential metals with explicit exclusion of micro contracts. -/
def isRealCommodity (name symbol : String) : Bool :=
  let nameUpper := strToUpper name
  let symbolUpper := strToUpper symbol
  if symbolUpper == "MGCUSD" || symbolUpper == "SILUSD" then false
  else if strContainsStr nameUpper "GOLD" || strContainsStr nameUpper "SILVER" ||
      strContainsStr nameUpper "PLATINUM" || strContainsStr nameUpper "PALLADIUM" ||
      strContainsStr nameUpper "COPPER" then true
  else if symbolUpper == "GCUSD" || symbolUpper == "SIUSD" || symbolUpper == "PLUSD" ||
      symbolUpper == "PAUSD" || symbolUpper == "HGUSD" then true
  else false

/-- The switch in GetCommodities assigning a synthetic market cap from an
assumed global supply constant per metal. -/
def commodityMarketCap (c : FMPCommodity) : ℚ :=
  let symbolUpper := strToUpper c.symbol
  if symbolUpper == "GCUSD" then c.price * 6400000000
  else if symbolUpper == "SIUSD" then c.price * 54600000000
  else if symbolUpper == "PLUSD" then c.price * 257000000
  else if symbolUpper == "PAUSD" then c.price * 175000000
  else if symbolUpper == "HGUSD" then c.price * 700000000
  else c.price * 1000000000

/-- The AssetData record GetCommodities builds for one retained commodity
(identical in both source files). -/
def commodityAsset (c : FMPCommodity) : AssetData where
  ticker := c.symbol
  name := c.name
  marketCap := commodityMarketCap c
  currentPrice := c.price
  previousClose := c.previousClose
  percentageChange := c.changesPercentage
  volume := 0
  primaryExchange := c.exchange
  country := "Global"
  sector := "Commodities"
  industry := "Commodities"
  assetType := "commodity"
  image := ""

/-- The loop body of GetCommodities: keep whitelisted commodities and build
their asset records (the continue-skipped rows never reach the output). -/
def processCommodities (cs : List FMPCommodity) : List AssetData :=
  (cs.filter (fun c => isRealCommodity c.name c.symbol)).map commodityAsset

/-- Relation used by sort.Slice in both main functions: the comparator is
marketCap i greater than marketCap j, so the sorted output is non-increasing
in marketCap; capGE a b says a may come before b. -/
def capGE (a b : AssetData) : Prop := b.marketCap ≤ a.marketCap

instance : DecidableRel capGE := fun a b => inferInstanceAs (Decidable (b.marketCap ≤ a.marketCap))

instance : IsTotal AssetData capGE := ⟨fun a b => le_total b.marketCap a.marketCap⟩

instance : IsTrans AssetData capGE := ⟨fun _ _ _ h₁ h₂ => le_trans h₂ h₁⟩

/-- Model of sort.Slice with the market-cap comparator: a deterministic sort
producing a list sorted non-increasingly by marketCap (Go's sort.Slice is
unstable; only sortedness, length and permutation are relied on). -/
def sortByCapDesc (l : List AssetData) : List AssetData := l.insertionSort capGE

/-- The ordering invariant of the final output: each record's marketCap is
greater than or equal to the next record's. -/
def SortedDesc (l : List AssetData) : Prop := l.Sorted capGE

namespace Screener

/-- Go func getListingPriority of stock_fmp_global.go (screener variant):
HK main listings 1, US ADRs 2, US main listings 3, OTC 4, selected European
suffixes 5, everything else 6. -/
def getListingPriority (symbol exchange : String) : Int :=
  let symbolUpper := strToUpper symbol
  let exchangeUpper := strToUpper exchange
  if strEndsWith symbolUpper ".HK" || exchangeUpper == "HKSE" then 1
  else if (exchangeUpper == "NASDAQ" || exchangeUpper == "NYSE") &&
      (strEndsWith symbolUpper "Y" || strEndsWith symbolUpper "H") then 2
  else if exchangeUpper == "NASDAQ" || exchangeUpper == "NYSE" then 3
  else if exchangeUpper == "OTC" || strEndsWith symbolUpper "F" then 4
  else if strEndsWith symbolUpper ".VI" || strEndsWith symbolUpper ".L" ||
      strEndsWith symbolUpper ".PA" || strEndsWith symbolUpper ".DE" then 5
  else 6

/-- Go func shouldKeepNewListing of stock_fmp_global.go: replace the stored
listing when the new one has strictly lower priority, or equal priority and
strictly greater market cap. -/
def shouldKeepNewListing (newStock existingStock : FMPStockScreener) : Bool :=
  let newPriority := getListingPriority newStock.symbol newStock.exchangeShortName
  let existingPriority := getListingPriority existingStock.symbol existingStock.exchangeShortName
  if newPriority < existingPriority then true
  else if newPriority = existingPriority then
    decide (newStock.marketCap > existingStock.marketCap)
  else false

/-- The fallback exchange-rate table of stock_fmp_global.go. -/
def fallbackRates : List (String × ℚ) :=
  [("HKD", 0.128), ("EUR", 1.08), ("GBP", 1.26), ("JPY", 0.0067), ("CAD", 0.74),
   ("AUD", 0.64), ("CNY", 0.14), ("IDR", 0.000065), ("INR", 0.012), ("KRW", 0.00075),
   ("BRL", 0.18), ("MXN", 0.058), ("ZAR", 0.055), ("THB", 0.029), ("MYR", 0.22),
   ("PHP", 0.018), ("VND", 0.000040)]

/-- Go method getUSDExchangeRate of stock_fmp_global.go.  The live FX call is
modelled by fxResult: some (bid, ask) when the request succeeded, parsed and
was non-empty, none on any failure.  On failure the static table is
consulted; unknown currencies yield 1. -/
def getUSDExchangeRate (fxResult : Option (ℚ × ℚ)) (fromCurrency : String) : ℚ :=
  match fxResult with
  | some (bid, ask) => (bid + ask) / 2
  | none =>
    match lookupRate fallbackRates fromCurrency with
    | some rate => rate
    | none => 1

/-- The inline currency-detection chain of GetGlobalStocks in
stock_fmp_global.go (symbol suffix, exchange and country tests, in source
order, defaulting to USD). -/
def detectCurrency (stock : FMPStockScreener) : String :=
  let symbolUpper := strToUpper stock.symbol
  let exchangeUpper := strToUpper stock.exchangeShortName
  let countryUpper := strToUpper stock.country
  if strEndsWith symbolUpper ".HK" || exchangeUpper == "HKSE" || countryUpper == "HK" then "HKD"
  else if strEndsWith symbolUpper ".L" || exchangeUpper == "LSE" then "GBP"
  else if strEndsWith symbolUpper ".PA" || strEndsWith symbolUpper ".DE" ||
      strContainsStr exchangeUpper "EUR" then "EUR"
  else if strEndsWith symbolUpper ".T" || countryUpper == "JP" then "JPY"
  else if strEndsWith symbolUpper ".TO" || countryUpper == "CA" then "CAD"
  else if countryUpper == "CN" then "CNY"
  else if strEndsWith symbolUpper ".JK" || countryUpper == "ID" then "IDR"
  else if countryUpper == "IN" then "INR"
  else if countryUpper == "KR" then "KRW"
  else if countryUpper == "BR" then "BRL"
  else if countryUpper == "MX" then "MXN"
  else if countryUpper == "ZA" then "ZAR"
  else if countryUpper == "TH" then "THB"
  else if countryUpper == "MY" then "MYR"
  else if countryUpper == "PH" then "PHP"
  else if countryUpper == "VN" then "VND"
  else "USD"

/-- The fund and index-fund name filter of GetGlobalStocks in
stock_fmp_global.go (word-boundary matches against seven marker words). -/
def isFundName (nameUpper : String) : Bool :=
  containsWord nameUpper "ETF" || containsWord nameUpper "INDEX" ||
  containsWord nameUpper "FUND" || containsWord nameUpper "SPDR" ||
  containsWord nameUpper "ISHARES" || containsWord nameUpper "VANGUARD" ||
  containsWord nameUpper "INVESCO"

/-- Market cap after the USD conversion step of GetGlobalStocks in
stock_fmp_global.go: non-USD currencies multiply by the resolved rate. -/
def marketCapUSDOf (stock : FMPStockScreener) (rate : String → ℚ) : ℚ :=
  if detectCurrency stock ≠ "USD" then stock.marketCap * rate (detectCurrency stock)
  else stock.marketCap

/-- Current price after the conversion step of GetGlobalStocks in
stock_fmp_global.go: the screener variant multiplies the price by the
exchange rate as well (the source comments read "Now converted to USD"). -/
def currentPriceOf (stock : FMPStockScreener) (rate : String → ℚ) : ℚ :=
  if detectCurrency stock ≠ "USD" then stock.price * rate (detectCurrency stock)
  else stock.price

/-- Previous close after quote fallback and conversion in GetGlobalStocks of
stock_fmp_global.go: quote value when the quote succeeded, screener price
otherwise, then converted like the current price. -/
def previousCloseOf (stock : FMPStockScreener) (quoteResult : Option FMPQuote)
    (rate : String → ℚ) : ℚ :=
  let base := match quoteResult with
    | some q => q.previousClose
    | none => stock.price
  if detectCurrency stock ≠ "USD" then base * rate (detectCurrency stock)
  else base

/-- The AssetData record the processing loop of GetGlobalStocks in
stock_fmp_global.go builds for a surviving row (the Go code comments that
market cap and prices are "Now converted to USD"). -/
def buildAsset (stock : FMPStockScreener) (quoteResult : Option FMPQuote)
    (profileResult : Option FMPCompanyProfile) (rate : String → ℚ) : AssetData where
  ticker := stock.symbol
  name := stock.companyName
  marketCap := marketCapUSDOf stock rate
  currentPrice := currentPriceOf stock rate
  previousClose := previousCloseOf stock quoteResult rate
  percentageChange := match quoteResult with
    | some q => q.changesPercentage
    | none => 0
  volume := stock.volume
  primaryExchange := stock.exchangeShortName
  country := stock.country
  sector := stock.sector
  industry := stock.industry
  assetType := if strContainsStr (strToUpper stock.companyName) "REIT" then "reit" else "stock"
  image := match profileResult with
    | some p => p.image
    | none => ""

/-- The per-stock body of the processing loop of GetGlobalStocks in
stock_fmp_global.go: the guards (inactive, ETF, fund-marker name, sanity
checks) produce none (the Go continue), otherwise the constructed AssetData.
quoteResult and profileResult stand for the per-symbol quote and profile
calls (none on failure); rate stands for getUSDExchangeRate. -/
def processStock (stock : FMPStockScreener) (quoteResult : Option FMPQuote)
    (profileResult : Option FMPCompanyProfile) (rate : String → ℚ) : Option AssetData :=
  if stock.isActivelyTrading = false then none
  else if stock.isEtf = true then none
  else if isFundName (strToUpper stock.companyName) then none
  else if marketCapUSDOf stock rate > 10000000000000 then none
  else if strEndsWith (strToUpper stock.symbol) ".JK" = true ∧
      marketCapUSDOf stock rate > 100000000000 then none
  else some (buildAsset stock quoteResult profileResult rate)

/-- The processing loop of GetGlobalStocks in stock_fmp_global.go over a list
of screener rows: per-row processing, stopping once maxStocks (490) records
have been collected. -/
def processStocks (stocks : List FMPStockScreener) (quotes : String → Option FMPQuote)
    (profiles : String → Option FMPCompanyProfile) (rate : String → ℚ) : List AssetData :=
  ((stocks.filterMap (fun s => processStock s (quotes s.symbol) (profiles s.symbol) rate)).take 490)

/-- The final combine step of main in stock_fmp_global.go: split the fetched
assets into stocks and commodities, sort the stocks by market cap, truncate
the stocks (only) to 500, append the commodities, and sort the result. -/
def finalAssets (allAssets : List AssetData) : List AssetData :=
  let stocks := allAssets.filter (fun a => a.assetType ≠ "commodity")
  let commodities := allAssets.filter (fun a => a.assetType = "commodity")
  let stocksSorted := sortByCapDesc stocks
  let stocksTop := if stocksSorted.length > 500 then stocksSorted.take 500 else stocksSorted
  sortByCapDesc (stocksTop ++ commodities)

end Screener

namespace Batch

/-- Go func getListingPriority of the batch variant: HK and London main
listings 1, continental European suffixes 2, US main listings 3, US ADRs 4,
OTC 5, everything else 6. -/
def getListingPriority (symbol exchange : String) : Int :=
  let symbolUpper := strToUpper symbol
  let exchangeUpper := strToUpper exchange
  if strEndsWith symbolUpper ".HK" || exchangeUpper == "HKSE" then 1
  else if strEndsWith symbolUpper ".L" || exchangeUpper == "LSE" then 1
  else if strEndsWith symbolUpper ".PA" || strEndsWith symbolUpper ".DE" ||
      strEndsWith symbolUpper ".VI" || strEndsWith symbolUpper ".SW" then 2
  else if (exchangeUpper == "NASDAQ" || exchangeUpper == "NYSE") &&
      (!strEndsWith symbolUpper "Y" && !strEndsWith symbolUpper "H") then 3
  else if (exchangeUpper == "NASDAQ" || exchangeUpper == "NYSE") &&
      (strEndsWith symbolUpper "Y" || strEndsWith symbolUpper "H") then 4
  else if exchangeUpper == "OTC" || strEndsWith symbolUpper "F" then 5
  else 6

/-- The home-region guards of the batch getListingPriority (its first three
branches: Hong Kong, London and continental European listings). -/
def homeRegion (symbol exchange : String) : Bool :=
  let symbolUpper := strToUpper symbol
  let exchangeUpper := strToUpper exchange
  (strEndsWith symbolUpper ".HK" || exchangeUpper == "HKSE") ||
  (strEndsWith symbolUpper ".L" || exchangeUpper == "LSE") ||
  (strEndsWith symbolUpper ".PA" || strEndsWith symbolUpper ".DE" ||
    strEndsWith symbolUpper ".VI" || strEndsWith symbolUpper ".SW")

/-- The NASDAQ or NYSE test of the batch getListingPriority. -/
def usMajor (exchange : String) : Bool :=
  strToUpper exchange == "NASDAQ" || strToUpper exchange == "NYSE"

/-- The depositary-receipt-style ticker test of the batch getListingPriority
(symbol ending in Y or H). -/
def drStyle (symbol : String) : Bool :=
  strEndsWith (strToUpper symbol) "Y" || strEndsWith (strToUpper symbol) "H"

/-- The over-the-counter test of the batch getListingPriority. -/
def otcStyle (symbol exchange : String) : Bool :=
  strToUpper exchange == "OTC" || strEndsWith (strToUpper symbol) "F"

/-- The fallback exchange-rate table of the batch variant. -/
def fallbackRates : List (String × ℚ) :=
  [("HKD", 0.128), ("EUR", 1.08), ("GBP", 1.26), ("JPY", 0.0067), ("CAD", 0.74),
   ("AUD", 0.64), ("CNY", 0.14), ("DKK", 0.145), ("IDR", 0.000065), ("INR", 0.012),
   ("KRW", 0.00075), ("BRL", 0.18), ("MXN", 0.058), ("ZAR", 0.055), ("THB", 0.029),
   ("MYR", 0.22), ("PHP", 0.018), ("VND", 0.000040), ("SGD", 0.74), ("TWD", 0.031),
   ("CLP", 0.0010), ("SAR", 0.267), ("ILS", 0.27), ("COP", 0.00025), ("PEN", 0.27),
   ("EGP", 0.020), ("TRY", 0.029), ("RUB", 0.010)]

/-- Go method getUSDExchangeRate of the batch variant; fxResult models the
live FX call as in the screener variant. -/
def getUSDExchangeRate (fxResult : Option (ℚ × ℚ)) (fromCurrency : String) : ℚ :=
  match fxResult with
  | some (bid, ask) => (bid + ask) / 2
  | none =>
    match lookupRate fallbackRates fromCurrency with
    | some rate => rate
    | none => 1

/-- Go method detectCurrency of the batch variant: symbol-suffix tests with
country-code fallbacks, in source order, defaulting to USD. -/
def detectCurrency (symbol country : String) : String :=
  let symbolUpper := strToUpper symbol
  let countryUpper := strToUpper country
  if strEndsWith symbolUpper ".JK" || countryUpper == "ID" then "IDR"
  else if strEndsWith symbolUpper ".L" || countryUpper == "GB" then "GBP"
  else if strEndsWith symbolUpper ".PA" || strEndsWith symbolUpper ".DE" ||
      strEndsWith symbolUpper ".MI" || strEndsWith symbolUpper ".AS" ||
      countryUpper == "FR" || countryUpper == "DE" || countryUpper == "IT" ||
      countryUpper == "ES" || countryUpper == "NL" then "EUR"
  else if strEndsWith symbolUpper ".T" || countryUpper == "JP" then "JPY"
  else if strEndsWith symbolUpper ".HK" || countryUpper == "HK" then "HKD"
  else if strEndsWith symbolUpper ".TO" || countryUpper == "CA" then "CAD"
  else if strEndsWith symbolUpper ".AX" || countryUpper == "AU" then "AUD"
  else if strEndsWith symbolUpper ".SS" || strEndsWith symbolUpper ".SZ" ||
      countryUpper == "CN" then "CNY"
  else if strEndsWith symbolUpper ".TW" || countryUpper == "TW" then "TWD"
  else if strEndsWith symbolUpper ".KS" || strEndsWith symbolUpper ".KQ" ||
      countryUpper == "KR" then "KRW"
  else if strEndsWith symbolUpper ".SA" || countryUpper == "BR" then "BRL"
  else if strEndsWith symbolUpper ".MX" || countryUpper == "MX" then "MXN"
  else if strEndsWith symbolUpper ".TA" || countryUpper == "IL" then "ILS"
  else if strEndsWith symbolUpper ".SR" || countryUpper == "SA" then "SAR"
  else if strEndsWith symbolUpper ".BA" || countryUpper == "AR" then "ARS"
  else if strEndsWith symbolUpper ".CO" || countryUpper == "DK" then "DKK"
  else if countryUpper == "IN" then "INR"
  else if countryUpper == "ZA" then "ZAR"
  else "USD"

/-- Go method detectCountryFromSymbol of the batch variant. -/
def detectCountryFromSymbol (symbol : String) : String :=
  let symbolUpper := strToUpper symbol
  if strEndsWith symbolUpper ".HK" then "HK"
  else if strEndsWith symbolUpper ".PA" then "FR"
  else if strEndsWith symbolUpper ".L" then "GB"
  else if strEndsWith symbolUpper ".DE" then "DE"
  else if strEndsWith symbolUpper ".SW" then "CH"
  else if strEndsWith symbolUpper ".SR" then "SA"
  else if strEndsWith symbolUpper ".T" then "JP"
  else if strEndsWith symbolUpper ".AX" then "AU"
  else if strEndsWith symbolUpper ".TO" then "CA"
  else if strEndsWith symbolUpper ".SA" then "BR"
  else if strEndsWith symbolUpper ".KS" then "KR"
  else if strEndsWith symbolUpper ".TW" then "TW"
  else if strEndsWith symbolUpper ".MI" then "IT"
  else if strEndsWith symbolUpper ".MX" then "MX"
  else if strEndsWith symbolUpper ".ME" then "RU"
  else if strEndsWith symbolUpper ".JO" then "ZA"
  else if strEndsWith symbolUpper ".CO" then "DK"
  else if strEndsWith symbolUpper ".AS" then "NL"
  else "US"

/-- The default FMPCompanyProfile GetMajorGlobalStocks synthesizes when the
profile call fails or is skipped for smaller companies (remaining Go struct
fields are zero values). -/
def defaultProfile (stock : FMPBatchMarketCap) (quote : FMPQuote) : FMPCompanyProfile where
  symbol := stock.symbol
  companyName := quote.name
  image := ""
  price := 0
  beta := 0
  volAvg := 0
  mktCap := 0
  industry := "Unknown"
  sector := "Unknown"
  country := "Unknown"
  exchange := ""
  website := ""
  description := ""

/-- The profile-resolution step of GetMajorGlobalStocks: the profile endpoint
is consulted only for companies above 10 billion, with the synthesized
default on failure or below the threshold. -/
def resolveProfile (stock : FMPBatchMarketCap) (quote : FMPQuote)
    (profileResult : Option FMPCompanyProfile) : FMPCompanyProfile :=
  if stock.marketCap > 10000000000 then
    match profileResult with
    | some p => p
    | none => defaultProfile stock quote
  else defaultProfile stock quote

/-- The market-cap source selection of GetMajorGlobalStocks: for non-USD
securities with a positive quote-endpoint market cap, the quote figure is
preferred when it is more than 10 times the batch figure and above 100
billion (it is then assumed to be in USD already); the second component is
the marketCapSource label the Go code tracks. -/
def chooseMarketCap (stock : FMPBatchMarketCap) (quote : FMPQuote)
    (currencyCode : String) : ℚ × String :=
  if currencyCode ≠ "USD" ∧ quote.marketCap > 0 then
    let batchCap := stock.marketCap
    let quoteCap := quote.marketCap
    if quoteCap / batchCap > 10 ∧ quoteCap > 100000000000 then (quoteCap, "quote (likely USD)")
    else (batchCap, "batch (local currency)")
  else (stock.marketCap, "batch")

/-- The USD market cap computed by GetMajorGlobalStocks: the selected source
figure, multiplied by the resolved exchange rate unless the currency is USD
or the source was already judged to be in USD. -/
def marketCapUSDOf (stock : FMPBatchMarketCap) (quote : FMPQuote)
    (currencyCode : String) (rate : String → ℚ) : ℚ :=
  let chosen := chooseMarketCap stock quote currencyCode
  if currencyCode ≠ "USD" ∧ chosen.2 ≠ "quote (likely USD)" then chosen.1 * rate currencyCode
  else chosen.1

/-- The AssetData record GetMajorGlobalStocks builds for one batch row:
prices stay in the quote's native currency, the market cap is the USD figure
from the reconciliation heuristic. -/
def buildAsset (stock : FMPBatchMarketCap) (quote : FMPQuote)
    (profileResult : Option FMPCompanyProfile) (rate : String → ℚ) : AssetData :=
  let profile := resolveProfile stock quote profileResult
  let currencyCode := detectCurrency stock.symbol profile.country
  { ticker := stock.symbol
    name := profile.companyName
    marketCap := marketCapUSDOf stock quote currencyCode rate
    currentPrice := quote.price
    previousClose := quote.previousClose
    percentageChange := quote.changesPercentage
    volume := quote.volume
    primaryExchange := quote.exchange
    country := if profile.country = "Unknown" ∨ profile.country = "" then
        detectCountryFromSymbol stock.symbol
      else profile.country
    sector := profile.sector
    industry := profile.industry
    assetType := "stock"
    image := profile.image }

/-- The per-row body of GetMajorGlobalStocks: rows with non-positive batch
market cap are skipped, rows whose quote call fails are skipped, every other
row yields the constructed asset (the batch variant applies no further
sanity filter before appending). -/
def processStock (stock : FMPBatchMarketCap) (quoteResult : Option FMPQuote)
    (profileResult : Option FMPCompanyProfile) (rate : String → ℚ) : Option AssetData :=
  if stock.marketCap ≤ 0 then none
  else
    match quoteResult with
    | none => none
    | some quote => some (buildAsset stock quote profileResult rate)

/-- The final combine step of main in the batch variant: split into stocks
and commodities, sort the stocks, append the commodities, sort everything by
market cap, and only then truncate to the top 500. -/
def finalAssets (allAssets : List AssetData) : List AssetData :=
  let stocks := allAssets.filter (fun a => a.assetType ≠ "commodity")
  let commodities := allAssets.filter (fun a => a.assetType = "commodity")
  let stocksSorted := sortByCapDesc stocks
  let combined := sortByCapDesc (stocksSorted ++ commodities)
  if combined.length > 500 then combined.take 500 else combined

end Batch

namespace Screener

/-- The listing priority of a screener row (the pair of arguments
shouldKeepNewListing extracts from each record). -/
def prio (s : FMPStockScreener) : Int := getListingPriority s.symbol s.exchangeShortName

/-- The per-collision update of the deduplication loop of GetGlobalStocks in
stock_fmp_global.go, acting on the companyNames map (modelled as a function
from normalized company name to the stored record). -/
def dedupStep (m : String → Option FMPStockScreener) (stock : FMPStockScreener) :
    String → Option FMPStockScreener := fun k =>
  if k = strToLower stock.companyName then
    match m k with
    | none => some stock
    | some existing =>
      if shouldKeepNewListing stock existing then some stock else some existing
  else m k

/-- The deduplication loop of GetGlobalStocks in stock_fmp_global.go: fold
the screener rows into the companyNames map keyed by the lower-cased company
name. -/
def dedupFold (l : List FMPStockScreener) : String → Option FMPStockScreener :=
  l.foldl dedupStep (fun _ => none)

/-- One step of the deduplication restricted to a single key. -/
def keyStep (acc : Option FMPStockScreener) (stock : FMPStockScreener) :
    Option FMPStockScreener :=
  match acc with
  | none => some stock
  | some existing =>
    if shouldKeepNewListing stock existing then some stock else some existing

/-- The deduplication fold restricted to the records of a single key. -/
def keyFoldAcc (acc : Option FMPStockScreener) (l : List FMPStockScreener) :
    Option FMPStockScreener :=
  l.foldl keyStep acc

/-- Absence of exact ties between distinct same-company records: any two
distinct records with the same normalized company name differ in listing
priority or in market cap. -/
def NoTieRel (a b : FMPStockScreener) : Prop :=
  strToLower a.companyName = strToLower b.companyName → a ≠ b →
    prio a ≠ prio b ∨ a.marketCap ≠ b.marketCap

instance : DecidableRel NoTieRel := fun a b => by
  unfold NoTieRel
  infer_instance

/-- A record list is tie-free when no two distinct records of the same
company share both listing priority and market cap. -/
def NoTies (l : List FMPStockScreener) : Prop := l.Pairwise NoTieRel

instance : DecidablePred NoTies := fun l => by
  unfold NoTies
  infer_instance

end Screener

/-- Lower-case hexadecimal digit, as used by Go encoding/json escape
sequences. -/
def hexDigit (n : Nat) : Char :=
  if n < 10 then Char.ofNat ('0'.toNat + n) else Char.ofNat ('a'.toNat + (n - 10))

/-- Whether Go encoding/json emits an ASCII character literally: everything
at or above 0x20 except quote and backslash, and except ampersand, less-than
and greater-than when HTML escaping is on. -/
def jsonSafeChar (escapeHTML : Bool) (c : Char) : Bool :=
  (0x20 ≤ c.toNat) && c ≠ '"' && c ≠ '\\' &&
  (!escapeHTML || (c ≠ '&' && c ≠ '<' && c ≠ '>'))

/-- Go encoding/json encoding of one character of a string value: ASCII
characters are emitted literally when safe and escaped otherwise, non-ASCII
characters are emitted literally except the line separators U+2028 and
U+2029.  The escapeHTML flag is the encoder state toggled by
SetEscapeHTML. -/
def escapeJSONChar (escapeHTML : Bool) (c : Char) : List Char :=
  if c.toNat < 0x80 then
    if jsonSafeChar escapeHTML c then [c]
    else if c = '"' then ['\\', '"']
    else if c = '\\' then ['\\', '\\']
    else if c = '\n' then ['\\', 'n']
    else if c = '\r' then ['\\', 'r']
    else if c = '\t' then ['\\', 't']
    else ['\\', 'u', '0', '0', hexDigit (c.toNat / 16), hexDigit (c.toNat % 16)]
  else if c.toNat = 0x2028 then ['\\', 'u', '2', '0', '2', '8']
  else if c.toNat = 0x2029 then ['\\', 'u', '2', '0', '2', '9']
  else [c]

/-- Go encoding/json encoding of a string value (quoted, character by
character) under the given HTML-escaping mode. -/
def jsonEncodeString (escapeHTML : Bool) (s : String) : String :=
  ⟨'"' :: ((s.data.map (escapeJSONChar escapeHTML)).flatten ++ ['"'])⟩

namespace Screener

/-- How saveToJSON of stock_fmp_global.go encodes a string field: the
encoder sets SetIndent but never calls SetEscapeHTML, so Go's default HTML
escaping stays enabled. -/
def encodeNameJSON (s : String) : String := jsonEncodeString true s

/-- The indentation configured by SetIndent in saveToJSON of
stock_fmp_global.go. -/
def jsonIndent : String := "  "

end Screener

namespace Batch

/-- How saveToJSON of the batch variant encodes a string field: the encoder
calls SetEscapeHTML false, disabling HTML escaping. -/
def encodeNameJSON (s : String) : String := jsonEncodeString false s

/-- The indentation configured by SetIndent in saveToJSON of the batch
variant. -/
def jsonIndent : String := "  "

end Batch

/-- A gold-futures commodity row as returned by the commodity endpoint. -/
def goldRow : FMPCommodity where
  symbol := "GCUSD"
  name := "Gold Futures"
  price := 2400
  changesPercentage := 1
  change := 28
  previousClose := 2372
  exchange := "COMEX"

/-- First of two listings of the same company that tie on listing priority
and market cap (NYSE, no depositary-receipt suffix, cap 20 billion). -/
def globalCoA : FMPStockScreener where
  symbol := "GLBA"
  companyName := "Global Co"
  marketCap := 20000000000
  sector := "Industrials"
  industry := "Conglomerates"
  beta := 1
  price := 10
  volume := 1000
  exchange := "New York Stock Exchange"
  exchangeShortName := "NYSE"
  country := "US"
  isEtf := false
  isActivelyTrading := true

/-- Second listing of the same company: identical priority (NYSE primary)
and identical market cap, different ticker. -/
def globalCoB : FMPStockScreener where
  symbol := "GLBB"
  companyName := "Global Co"
  marketCap := 20000000000
  sector := "Industrials"
  industry := "Conglomerates"
  beta := 1
  price := 12
  volume := 900
  exchange := "New York Stock Exchange"
  exchangeShortName := "NYSE"
  country := "US"
  isEtf := false
  isActivelyTrading := true

/-- A Hong Kong main listing of a fictional company (priority 1). -/
def fictionalHK : FMPStockScreener where
  symbol := "0001.HK"
  companyName := "Fictional Corp"
  marketCap := 300000000000
  sector := "Technology"
  industry := "Software"
  beta := 1
  price := 80
  volume := 5000
  exchange := "Hong Kong Stock Exchange"
  exchangeShortName := "HKSE"
  country := "HK"
  isEtf := false
  isActivelyTrading := true

/-- A US ADR listing of the same fictional company (priority 2, different
market cap). -/
def fictionalADR : FMPStockScreener where
  symbol := "FCTY"
  companyName := "Fictional Corp"
  marketCap := 295000000000
  sector := "Technology"
  industry := "Software"
  beta := 1
  price := 40
  volume := 3000
  exchange := "NASDAQ Global Select"
  exchangeShortName := "NASDAQ"
  country := "US"
  isEtf := false
  isActivelyTrading := true

/-- A generic stock asset used to populate a long fetched list. -/
def stockAssetFixture : AssetData where
  ticker := "AAPL"
  name := "Apple Inc."
  marketCap := 3000000000000
  currentPrice := 200
  previousClose := 198
  percentageChange := 1
  volume := 1000000
  primaryExchange := "NASDAQ"
  country := "US"
  sector := "Technology"
  industry := "Consumer Electronics"
  assetType := "stock"
  image := ""

/-- A gold commodity asset as the commodity fetcher emits it. -/
def commodityAssetFixture : AssetData where
  ticker := "GCUSD"
  name := "Gold Futures"
  marketCap := 15360000000000
  currentPrice := 2400
  previousClose := 2372
  percentageChange := 1
  volume := 0
  primaryExchange := "COMEX"
  country := "Global"
  sector := "Commodities"
  industry := "Commodities"
  assetType := "commodity"
  image := ""

/-- A fetched list of the shape the screener main can receive: 490 stock
records (the fetcher's cap) and 11 retained commodities. -/
def c4Input : List AssetData :=
  List.replicate 490 stockAssetFixture ++ List.replicate 11 commodityAssetFixture

/-- The currency the batch fetcher resolves for a processed row. -/
def Batch.currencyOf (stock : FMPBatchMarketCap) (quote : FMPQuote)
    (profileResult : Option FMPCompanyProfile) : String :=
  Batch.detectCurrency stock.symbol (Batch.resolveProfile stock quote profileResult).country

/-- A Hong Kong batch row whose quote-endpoint market cap is more than ten
times the batch figure and above 100 billion dollars. -/
def hkBatchRow : FMPBatchMarketCap where
  symbol := "0700.HK"
  date := "2024-01-02"
  marketCap := 50000000000

/-- The quote for the Hong Kong batch row. -/
def hkQuote : FMPQuote where
  symbol := "0700.HK"
  name := "Tencent Holdings"
  price := 320
  changesPercentage := 1
  change := 3
  marketCap := 600000000000
  volume := 100000
  openPrice := 318
  previousClose := 317
  exchange := "HKSE"
  sharesOutstanding := 0

/-- A Saudi batch row whose quote-endpoint market cap stays within normal
bounds of the batch figure, so the batch figure is converted. -/
def saudiBatchRow : FMPBatchMarketCap where
  symbol := "2222.SR"
  date := "2024-01-02"
  marketCap := 7000000000000

/-- The quote for the Saudi batch row. -/
def saudiQuote : FMPQuote where
  symbol := "2222.SR"
  name := "Saudi Aramco"
  price := 30
  changesPercentage := 1
  change := 1
  marketCap := 7100000000000
  volume := 100000
  openPrice := 30
  previousClose := 29
  exchange := "SAU"
  sharesOutstanding := 0

/-- A non-USD screener row used to exhibit the price conversion of the
screener variant. -/
def tencentScreenerRow : FMPStockScreener where
  symbol := "0700.HK"
  companyName := "Tencent Holdings"
  marketCap := 3000000000000
  sector := "Technology"
  industry := "Internet"
  beta := 1
  price := 320
  volume := 100000
  exchange := "Hong Kong Stock Exchange"
  exchangeShortName := "HKSE"
  country := "HK"
  isEtf := false
  isActivelyTrading := true

/-- A USD security at 9.9 trillion dollars, below the sanity threshold. -/
def megaCapRow : FMPStockScreener where
  symbol := "MEGA"
  companyName := "Mega Corp"
  marketCap := 9900000000000
  sector := "Technology"
  industry := "Software"
  beta := 1
  price := 100
  volume := 1000
  exchange := "NASDAQ Global Select"
  exchangeShortName := "NASDAQ"
  country := "US"
  isEtf := false
  isActivelyTrading := true

/-- A batch row with a 15-trillion-dollar market cap. -/
def hugeBatchRow : FMPBatchMarketCap where
  symbol := "HUGE"
  date := "2024-01-02"
  marketCap := 15000000000000

/-- The quote for the 15-trillion batch row. -/
def hugeQuote : FMPQuote where
  symbol := "HUGE"
  name := "Huge Corp"
  price := 100
  changesPercentage := 1
  change := 1
  marketCap := 15000000000000
  volume := 1000
  openPrice := 100
  previousClose := 99
  exchange := "NYSE"
  sharesOutstanding := 0

/-! Theorems. -/

namespace Screener

theorem shouldKeep_iff (a b : FMPStockScreener) :
    shouldKeepNewListing a b = true ↔
      prio a < prio b ∨ (prio a = prio b ∧ b.marketCap < a.marketCap) := by
  simp only [shouldKeepNewListing, prio]
  split_ifs with h1 h2
  · simp [h1]
  · simp [h1, h2]
  · simp [h1, h2]

theorem better_irrefl (a : FMPStockScreener) : shouldKeepNewListing a a = false := by
  rw [← Bool.not_eq_true, shouldKeep_iff]
  simp

theorem better_trans {a b c : FMPStockScreener} (h1 : shouldKeepNewListing a b = true)
    (h2 : shouldKeepNewListing b c = true) : shouldKeepNewListing a c = true := by
  rw [shouldKeep_iff] at h1 h2 ⊢
  rcases h1 with h | ⟨e1, c1⟩ <;> rcases h2 with h' | ⟨e2, c2⟩
  · exact Or.inl (lt_trans h h')
  · exact Or.inl (e2 ▸ h)
  · exact Or.inl (e1 ▸ h')
  · exact Or.inr ⟨e1.trans e2, lt_trans c2 c1⟩

theorem tie_of_not_better {a b : FMPStockScreener} (h1 : shouldKeepNewListing a b = false)
    (h2 : shouldKeepNewListing b a = false) :
    prio a = prio b ∧ a.marketCap = b.marketCap := by
  rw [← Bool.not_eq_true, shouldKeep_iff] at h1 h2
  push_neg at h1 h2
  have hp : prio a = prio b := by omega
  refine ⟨hp, le_antisymm ?_ ?_⟩
  · exact h1.2 hp
  · exact h2.2 hp.symm

theorem foldl_dedupStep_apply (l : List FMPStockScreener)
    (m : String → Option FMPStockScreener) (k : String) :
    (l.foldl dedupStep m) k =
      keyFoldAcc (m k) (l.filter (fun s => k == strToLower s.companyName)) := by
  induction l generalizing m with
  | nil => rfl
  | cons s rest ih =>
    rw [List.foldl_cons, ih]
    by_cases h : k = strToLower s.companyName
    · have hstep : dedupStep m s k = keyStep (m k) s := by
        simp [dedupStep, keyStep, h]
      simp only [List.filter_cons]
      rw [if_pos (by simpa using h), hstep]
      rfl
    · have hstep : dedupStep m s k = m k := by simp [dedupStep, h]
      simp only [List.filter_cons]
      rw [if_neg (by simpa using h), hstep]

theorem dedupFold_eq_keyFold (l : List FMPStockScreener) (k : String) :
    dedupFold l k = keyFoldAcc none (l.filter (fun s => k == strToLower s.companyName)) :=
  foldl_dedupStep_apply l (fun _ => none) k

theorem keyFoldAcc_some_ne_none (l : List FMPStockScreener) :
    ∀ e, keyFoldAcc (some e) l ≠ none := by
  induction l with
  | nil => intro e h; cases h
  | cons s rest ih =>
    intro e
    show keyFoldAcc (keyStep (some e) s) rest ≠ none
    simp only [keyStep]
    split_ifs <;> exact ih _

theorem keyFoldAcc_none_iff (l : List FMPStockScreener) :
    keyFoldAcc none l = none ↔ l = [] := by
  cases l with
  | nil => simp [keyFoldAcc]
  | cons s rest =>
    constructor
    · intro h
      exact absurd h (keyFoldAcc_some_ne_none rest s)
    · intro h
      cases h

theorem keyFoldAcc_mem (l : List FMPStockScreener) :
    ∀ acc m, keyFoldAcc acc l = some m → acc = some m ∨ m ∈ l := by
  induction l with
  | nil => intro acc m h; exact Or.inl h
  | cons s rest ih =>
    intro acc m h
    have h' : keyFoldAcc (keyStep acc s) rest = some m := h
    rcases ih _ m h' with hstep | hmem
    · cases acc with
      | none =>
        simp only [keyStep] at hstep
        exact Or.inr (by simp [← Option.some.inj hstep])
      | some e =>
        simp only [keyStep] at hstep
        split_ifs at hstep
        · exact Or.inr (by simp [← Option.some.inj hstep])
        · exact Or.inl hstep
    · exact Or.inr (List.mem_cons_of_mem s hmem)

theorem keyFoldAcc_unbeaten_from {x : FMPStockScreener} (l : List FMPStockScreener) :
    ∀ e m, shouldKeepNewListing x e = false → keyFoldAcc (some e) l = some m →
      shouldKeepNewListing x m = false := by
  induction l with
  | nil =>
    intro e m hx h
    cases Option.some.inj h
    exact hx
  | cons s rest ih =>
    intro e m hx h
    have h' : keyFoldAcc (keyStep (some e) s) rest = some m := h
    by_cases hs : shouldKeepNewListing s e = true
    · have hxs : shouldKeepNewListing x s = false := by
        cases hb : shouldKeepNewListing x s with
        | false => rfl
        | true => exact absurd (better_trans hb hs) (by simp [hx])
      have : keyStep (some e) s = some s := by simp [keyStep, hs]
      exact ih s m hxs (by rwa [this] at h')
    · have : keyStep (some e) s = some e := by
        simp [keyStep, hs]
      exact ih e m hx (by rwa [this] at h')

theorem keyFoldAcc_unbeaten (l : List FMPStockScreener) :
    ∀ acc m, keyFoldAcc acc l = some m → ∀ b ∈ l, shouldKeepNewListing b m = false := by
  induction l with
  | nil => intro acc m _ b hb; cases hb
  | cons s rest ih =>
    intro acc m h b hb
    have h' : keyFoldAcc (keyStep acc s) rest = some m := h
    obtain ⟨e', he', hse'⟩ :
        ∃ e', keyStep acc s = some e' ∧ shouldKeepNewListing s e' = false := by
      cases acc with
      | none => exact ⟨s, rfl, better_irrefl s⟩
      | some e =>
        by_cases hb' : shouldKeepNewListing s e = true
        · exact ⟨s, by simp [keyStep, hb'], better_irrefl s⟩
        · exact ⟨e, by simp [keyStep, hb'], by simpa using hb'⟩
    rcases List.mem_cons.mp hb with rfl | hbrest
    · exact keyFoldAcc_unbeaten_from rest e' m hse' (by rwa [he'] at h')
    · exact ih _ m h' b hbrest

theorem keyFoldAcc_perm_eq (F₁ F₂ : List FMPStockScreener) (hperm : F₁.Perm F₂)
    (hnt : ∀ a ∈ F₁, ∀ b ∈ F₁, a ≠ b → prio a ≠ prio b ∨ a.marketCap ≠ b.marketCap) :
    keyFoldAcc none F₁ = keyFoldAcc none F₂ := by
  cases h1 : keyFoldAcc none F₁ with
  | none =>
    have hnil : F₁ = [] := (keyFoldAcc_none_iff F₁).mp h1
    subst hnil
    have : F₂ = [] := hperm.symm.eq_nil
    subst this
    rfl
  | some m₁ =>
    cases h2 : keyFoldAcc none F₂ with
    | none =>
      have hnil : F₂ = [] := (keyFoldAcc_none_iff F₂).mp h2
      subst hnil
      have : F₁ = [] := hperm.eq_nil
      subst this
      cases h1
    | some m₂ =>
      have hm₁ : m₁ ∈ F₁ := by
        rcases keyFoldAcc_mem F₁ none m₁ h1 with h | h
        · cases h
        · exact h
      have hm₂F₂ : m₂ ∈ F₂ := by
        rcases keyFoldAcc_mem F₂ none m₂ h2 with h | h
        · cases h
        · exact h
      have hm₂ : m₂ ∈ F₁ := hperm.symm.subset hm₂F₂
      by_cases heq : m₁ = m₂
      · rw [heq]
      · have t1 : shouldKeepNewListing m₂ m₁ = false :=
          keyFoldAcc_unbeaten F₁ none m₁ h1 m₂ hm₂
        have t2 : shouldKeepNewListing m₁ m₂ = false :=
          keyFoldAcc_unbeaten F₂ none m₂ h2 m₁ (hperm.subset hm₁)
        have htie := tie_of_not_better t2 t1
        rcases hnt m₁ hm₁ m₂ hm₂ heq with hp | hc
        · exact absurd htie.1 hp
        · exact absurd htie.2 hc

theorem noTieRel_symm : Symmetric NoTieRel := by
  intro a b h hk hne
  exact (h hk.symm hne.symm).imp Ne.symm Ne.symm

end Screener

/-- C7: containsWord matches a marker word only at word boundaries, so the
company name Findex Corp is not matched by any of the six marker words (nor
excluded by the fund filter, which also checks INVESCO), while a name
containing a marker as a whole word is matched and excluded. -/
theorem c7_whole_word_filter :
    containsWord "Findex Corp" "ETF" = false ∧
    containsWord "Findex Corp" "INDEX" = false ∧
    containsWord "Findex Corp" "FUND" = false ∧
    containsWord "Findex Corp" "SPDR" = false ∧
    containsWord "Findex Corp" "ISHARES" = false ∧
    containsWord "Findex Corp" "VANGUARD" = false ∧
    Screener.isFundName (strToUpper "Findex Corp") = false ∧
    containsWord "Fidelity Nasdaq Index Trust" "INDEX" = true ∧
    Screener.isFundName (strToUpper "Fidelity Nasdaq Index Trust") = true := by
  decide

/-- C10: every commodity record produced by GetCommodities carries the fixed
field values asset type commodity, country Global, sector Commodities,
industry Commodities, volume 0 and an empty image, regardless of the
upstream quote. -/
theorem c10_commodity_fixed_fields (cs : List FMPCommodity) (a : AssetData)
    (h : a ∈ processCommodities cs) :
    a.assetType = "commodity" ∧ a.country = "Global" ∧ a.sector = "Commodities" ∧
      a.industry = "Commodities" ∧ a.volume = 0 ∧ a.image = "" := by
  simp only [processCommodities, List.mem_map] at h
  rcases h with ⟨c, _, rfl⟩
  exact ⟨rfl, rfl, rfl, rfl, rfl, rfl⟩

/-- Witness for C10 at a concrete gold-futures row. -/
theorem c10_witness :
    (commodityAsset goldRow).assetType = "commodity" ∧
      (commodityAsset goldRow).country = "Global" ∧
      (commodityAsset goldRow).sector = "Commodities" ∧
      (commodityAsset goldRow).industry = "Commodities" ∧
      (commodityAsset goldRow).volume = 0 ∧ (commodityAsset goldRow).image = "" :=
  c10_commodity_fixed_fields [goldRow] (commodityAsset goldRow) (by
    have h : isRealCommodity goldRow.name goldRow.symbol = true := by decide
    simp [processCommodities, h])

/-- C8: both variants of getUSDExchangeRate return the bid-ask midpoint when
the live FX lookup succeeds, the static fallback-table entry on any failure,
and exactly 1 for currencies absent from the table; the function is total. -/
theorem c8_fx_fallback :
    (∀ bid ask cur, Screener.getUSDExchangeRate (some (bid, ask)) cur = (bid + ask) / 2) ∧
    (∀ bid ask cur, Batch.getUSDExchangeRate (some (bid, ask)) cur = (bid + ask) / 2) ∧
    (∀ cur r, lookupRate Screener.fallbackRates cur = some r →
      Screener.getUSDExchangeRate none cur = r) ∧
    (∀ cur, lookupRate Screener.fallbackRates cur = none →
      Screener.getUSDExchangeRate none cur = 1) ∧
    (∀ cur r, lookupRate Batch.fallbackRates cur = some r →
      Batch.getUSDExchangeRate none cur = r) ∧
    (∀ cur, lookupRate Batch.fallbackRates cur = none →
      Batch.getUSDExchangeRate none cur = 1) := by
  refine ⟨fun _ _ _ => rfl, fun _ _ _ => rfl, ?_, ?_, ?_, ?_⟩
  · intro cur r h
    simp [Screener.getUSDExchangeRate, h]
  · intro cur h
    simp [Screener.getUSDExchangeRate, h]
  · intro cur r h
    simp [Batch.getUSDExchangeRate, h]
  · intro cur h
    simp [Batch.getUSDExchangeRate, h]

/-- Witness for C8: midpoint on success, table entries for HKD and SAR on
failure, 1 for unknown currencies. -/
theorem c8_witness :
    Screener.getUSDExchangeRate (some (0.127, 0.129)) "HKD" = 0.128 ∧
    Screener.getUSDExchangeRate none "HKD" = 0.128 ∧
    Screener.getUSDExchangeRate none "XXX" = 1 ∧
    Batch.getUSDExchangeRate none "SAR" = 0.267 ∧
    Batch.getUSDExchangeRate none "ZZZ" = 1 := by
  refine ⟨?_, ?_, ?_, ?_, ?_⟩
  · rw [c8_fx_fallback.1 0.127 0.129 "HKD"]
    norm_num
  · exact c8_fx_fallback.2.2.1 "HKD" 0.128 (by rfl)
  · exact c8_fx_fallback.2.2.2.1 "XXX" (by rfl)
  · exact c8_fx_fallback.2.2.2.2.1 "SAR" 0.267 (by rfl)
  · exact c8_fx_fallback.2.2.2.2.2 "ZZZ" (by rfl)

/-- C2 counterexample: two listings of the same company that tie on both
listing priority and market cap are kept first-seen-wins, so the two orders
of the same two-record set produce different surviving records. -/
theorem c2_counterexample :
    ([globalCoA, globalCoB]).Perm [globalCoB, globalCoA] ∧
    Screener.dedupFold [globalCoA, globalCoB] "global co" = some globalCoA ∧
    Screener.dedupFold [globalCoB, globalCoA] "global co" = some globalCoB ∧
    globalCoA ≠ globalCoB := by
  refine ⟨?_, by decide, by decide, by decide⟩
  exact List.Perm.swap globalCoB globalCoA []

/-- C2 (amended): the deduplication fold is order-independent on every input
list in which no two distinct records of the same company tie on both
listing priority and market cap; for each company name any two permutations
of such a set produce the same surviving record. -/
theorem c2_dedup_order_independent (l₁ l₂ : List FMPStockScreener) (hperm : l₁.Perm l₂)
    (hnt : Screener.NoTies l₁) (k : String) :
    Screener.dedupFold l₁ k = Screener.dedupFold l₂ k := by
  rw [Screener.dedupFold_eq_keyFold, Screener.dedupFold_eq_keyFold]
  apply Screener.keyFoldAcc_perm_eq _ _ (hperm.filter _)
  intro a ha b hb hne
  have ha' := List.mem_filter.mp ha
  have hb' := List.mem_filter.mp hb
  have hka : k = strToLower a.companyName := by simpa using ha'.2
  have hkb : k = strToLower b.companyName := by simpa using hb'.2
  exact (hnt.forall Screener.noTieRel_symm ha'.1 hb'.1 hne) (hka ▸ hkb ▸ rfl) hne

/-- Witness for C2 at the four-listing fixture of the specification, in two
orders. -/
theorem c2_witness :
    ([fictionalHK, fictionalADR, globalCoA]).Perm [globalCoA, fictionalHK, fictionalADR] ∧
    Screener.NoTies [fictionalHK, fictionalADR, globalCoA] ∧
    Screener.dedupFold [fictionalHK, fictionalADR, globalCoA] "fictional corp" =
      Screener.dedupFold [globalCoA, fictionalHK, fictionalADR] "fictional corp" := by
  refine ⟨by decide, by decide, ?_⟩
  exact c2_dedup_order_independent _ _ (by decide) (by decide) "fictional corp"

/-- C3 counterexample: in the screener variant, the NASDAQ primary ticker
AAPL receives priority 3 while the depositary-receipt-style NASDAQ ticker
SNY receives priority 2, so primary listings do not rank strictly better
than depositary-receipt-style ones. -/
theorem c3_counterexample :
    Screener.getListingPriority "AAPL" "NASDAQ" = 3 ∧
    Screener.getListingPriority "SNY" "NASDAQ" = 2 ∧
    ¬(Screener.getListingPriority "AAPL" "NASDAQ" <
        Screener.getListingPriority "SNY" "NASDAQ") := by
  decide

theorem Batch.priority_eq_three {s e : String} (hreg : Batch.homeRegion s e = false)
    (hus : Batch.usMajor e = true) (hdr : Batch.drStyle s = false) :
    Batch.getListingPriority s e = 3 := by
  simp only [Batch.homeRegion, Bool.or_eq_false_iff] at hreg
  simp only [Batch.usMajor] at hus
  simp only [Batch.drStyle, Bool.or_eq_false_iff] at hdr
  simp [Batch.getListingPriority, hreg.1.1, hreg.1.2, hreg.2, hus, hdr.1, hdr.2]

theorem Batch.priority_eq_four {s e : String} (hreg : Batch.homeRegion s e = false)
    (hus : Batch.usMajor e = true) (hdr : Batch.drStyle s = true) :
    Batch.getListingPriority s e = 4 := by
  simp only [Batch.homeRegion, Bool.or_eq_false_iff] at hreg
  simp only [Batch.usMajor] at hus
  simp only [Batch.drStyle] at hdr
  simp [Batch.getListingPriority, hreg.1.1, hreg.1.2, hreg.2, hus, ← Bool.not_or, hdr]

theorem Batch.priority_eq_five {s e : String} (hreg : Batch.homeRegion s e = false)
    (hus : Batch.usMajor e = false) (hotc : Batch.otcStyle s e = true) :
    Batch.getListingPriority s e = 5 := by
  simp only [Batch.homeRegion, Bool.or_eq_false_iff] at hreg
  simp only [Batch.usMajor, Bool.or_eq_false_iff] at hus
  simp only [Batch.otcStyle] at hotc
  simp [Batch.getListingPriority, hreg.1.1, hreg.1.2, hreg.2, hus.1, hus.2, hotc]

theorem Batch.priority_eq_six {s e : String} (hreg : Batch.homeRegion s e = false)
    (hus : Batch.usMajor e = false) (hotc : Batch.otcStyle s e = false) :
    Batch.getListingPriority s e = 6 := by
  simp only [Batch.homeRegion, Bool.or_eq_false_iff] at hreg
  simp only [Batch.usMajor, Bool.or_eq_false_iff] at hus
  simp only [Batch.otcStyle, Bool.or_eq_false_iff] at hotc
  simp [Batch.getListingPriority, hreg.1.1, hreg.1.2, hreg.2, hus.1, hus.2, hotc.1, hotc.2]

/-- C3 (amended): the strict ordering primary before depositary-receipt
before over-the-counter before remaining venues holds in the batch variant
of getListingPriority (outside its home-region rules, which rank Hong Kong,
London and continental European listings above all four classes); in the
screener variant the ordering fails, since depositary-receipt-style NASDAQ
and NYSE tickers there rank strictly better than primary ones. -/
theorem c3_listing_priority_order (sP eP sD eD sO eO sR eR : String)
    (hPreg : Batch.homeRegion sP eP = false) (hPus : Batch.usMajor eP = true)
    (hPdr : Batch.drStyle sP = false)
    (hDreg : Batch.homeRegion sD eD = false) (hDus : Batch.usMajor eD = true)
    (hDdr : Batch.drStyle sD = true)
    (hOreg : Batch.homeRegion sO eO = false) (hOus : Batch.usMajor eO = false)
    (hOotc : Batch.otcStyle sO eO = true)
    (hRreg : Batch.homeRegion sR eR = false) (hRus : Batch.usMajor eR = false)
    (hRotc : Batch.otcStyle sR eR = false) :
    Batch.getListingPriority sP eP < Batch.getListingPriority sD eD ∧
    Batch.getListingPriority sD eD < Batch.getListingPriority sO eO ∧
    Batch.getListingPriority sO eO < Batch.getListingPriority sR eR := by
  rw [Batch.priority_eq_three hPreg hPus hPdr, Batch.priority_eq_four hDreg hDus hDdr,
    Batch.priority_eq_five hOreg hOus hOotc, Batch.priority_eq_six hRreg hRus hRotc]
  refine ⟨by norm_num, by norm_num, by norm_num⟩

/-- Witness for C3 at concrete listings: AAPL on NASDAQ (primary), SNY on
NASDAQ (depositary-receipt style), TCEHY on OTC, and a Tokyo listing. -/
theorem c3_witness :
    Batch.getListingPriority "AAPL" "NASDAQ" < Batch.getListingPriority "SNY" "NASDAQ" ∧
    Batch.getListingPriority "SNY" "NASDAQ" < Batch.getListingPriority "TCEHY" "OTC" ∧
    Batch.getListingPriority "TCEHY" "OTC" < Batch.getListingPriority "7203.T" "TSE" :=
  c3_listing_priority_order "AAPL" "NASDAQ" "SNY" "NASDAQ" "TCEHY" "OTC" "7203.T" "TSE"
    (by decide) (by decide) (by decide) (by decide) (by decide) (by decide)
    (by decide) (by decide) (by decide) (by decide) (by decide) (by decide)

/-- Length of the screener final combine: the stock portion is capped at
500, the commodity portion is appended whole. -/
theorem Screener.finalAssets_length (l : List AssetData) :
    (Screener.finalAssets l).length =
      min (l.filter (fun a => a.assetType ≠ "commodity")).length 500 +
        (l.filter (fun a => a.assetType = "commodity")).length := by
  unfold Screener.finalAssets sortByCapDesc
  dsimp only
  split_ifs with h
  · rw [List.length_insertionSort] at h
    rw [List.length_insertionSort, List.length_append, List.length_take,
      List.length_insertionSort]
    omega
  · rw [List.length_insertionSort] at h
    rw [List.length_insertionSort, List.length_append, List.length_insertionSort]
    omega

/-- C4 counterexample: the screener main truncates only the stock list, so
with 490 stocks and 11 commodities the list handed to saveToJSON has 501
elements. -/
theorem c4_counterexample :
    (Screener.finalAssets c4Input).length = 501 ∧
      ¬((Screener.finalAssets c4Input).length ≤ 500) := by
  have hs : (fun a => decide (a.assetType ≠ "commodity")) stockAssetFixture = true := by decide
  have hs' : (fun a => decide (a.assetType ≠ "commodity")) commodityAssetFixture = false := by
    decide
  have hc : (fun a => decide (a.assetType = "commodity")) stockAssetFixture = false := by decide
  have hc' : (fun a => decide (a.assetType = "commodity")) commodityAssetFixture = true := by
    decide
  have hstocks : c4Input.filter (fun a => a.assetType ≠ "commodity") =
      List.replicate 490 stockAssetFixture := by
    simp only [c4Input, List.filter_append, List.filter_replicate, hs, hs']
    simp
  have hcomm : c4Input.filter (fun a => a.assetType = "commodity") =
      List.replicate 11 commodityAssetFixture := by
    simp only [c4Input, List.filter_append, List.filter_replicate, hc, hc']
    simp
  have h : (Screener.finalAssets c4Input).length = 501 := by
    rw [Screener.finalAssets_length, hstocks, hcomm, List.length_replicate,
      List.length_replicate]
    norm_num
  exact ⟨h, by omega⟩

/-- C4 (amended): the batch-variant main hands saveToJSON at most 500
records ordered non-increasingly by market cap; the screener-variant main
also emits a non-increasingly ordered list but bounds only its stock
portion,  so its total length can exceed 500 when commodities are present. -/
theorem c4_final_output_invariant (allAssets : List AssetData) :
    (Batch.finalAssets allAssets).length ≤ 500 ∧ SortedDesc (Batch.finalAssets allAssets) ∧
      SortedDesc (Screener.finalAssets allAssets) := by
  refine ⟨?_, ?_, ?_⟩
  · unfold Batch.finalAssets
    dsimp only
    split_ifs with h
    · exact List.length_take_le 500 _
    · omega
  · unfold Batch.finalAssets
    dsimp only
    split_ifs with h
    · exact (List.sorted_insertionSort capGE _).sublist (List.take_sublist 500 _)
    · exact List.sorted_insertionSort capGE _
  · exact List.sorted_insertionSort capGE _

theorem Batch.processStock_eq_some {stock : FMPBatchMarketCap} {quote : FMPQuote}
    {profileResult : Option FMPCompanyProfile} {rate : String → ℚ} {a : AssetData}
    (h : Batch.processStock stock (some quote) profileResult rate = some a) :
    a = Batch.buildAsset stock quote profileResult rate := by
  unfold Batch.processStock at h
  split_ifs at h
  exact (Option.some.inj h).symm

theorem Batch.chooseMarketCap_quote {stock : FMPBatchMarketCap} {quote : FMPQuote}
    {cur : String} (hcur : cur ≠ "USD") (hq : quote.marketCap > 0)
    (hbr : quote.marketCap / stock.marketCap > 10 ∧ quote.marketCap > 100000000000) :
    Batch.chooseMarketCap stock quote cur = (quote.marketCap, "quote (likely USD)") := by
  unfold Batch.chooseMarketCap
  rw [if_pos ⟨hcur, hq⟩]
  dsimp only
  rw [if_pos hbr]

theorem Batch.chooseMarketCap_batch {stock : FMPBatchMarketCap} {quote : FMPQuote}
    {cur : String} (hcur : cur ≠ "USD") (hq : quote.marketCap > 0)
    (hbr : ¬(quote.marketCap / stock.marketCap > 10 ∧ quote.marketCap > 100000000000)) :
    Batch.chooseMarketCap stock quote cur = (stock.marketCap, "batch (local currency)") := by
  unfold Batch.chooseMarketCap
  rw [if_pos ⟨hcur, hq⟩]
  dsimp only
  rw [if_neg hbr]

theorem Batch.chooseMarketCap_usd {stock : FMPBatchMarketCap} {quote : FMPQuote} :
    Batch.chooseMarketCap stock quote "USD" = (stock.marketCap, "batch") := by
  unfold Batch.chooseMarketCap
  rw [if_neg (by rintro ⟨hbad, -⟩; exact hbad rfl)]

theorem Batch.marketCapUSDOf_quote_branch {stock : FMPBatchMarketCap} {quote : FMPQuote}
    {cur : String} {rate : String → ℚ} (hcur : cur ≠ "USD") (hq : quote.marketCap > 0)
    (hbr : quote.marketCap / stock.marketCap > 10 ∧ quote.marketCap > 100000000000) :
    Batch.marketCapUSDOf stock quote cur rate = quote.marketCap := by
  unfold Batch.marketCapUSDOf
  rw [Batch.chooseMarketCap_quote hcur hq hbr]
  rw [if_neg (by rintro ⟨-, hbad⟩; exact hbad rfl)]

theorem Batch.marketCapUSDOf_batch_branch {stock : FMPBatchMarketCap} {quote : FMPQuote}
    {cur : String} {rate : String → ℚ} (hcur : cur ≠ "USD") (hq : quote.marketCap > 0)
    (hbr : ¬(quote.marketCap / stock.marketCap > 10 ∧ quote.marketCap > 100000000000)) :
    Batch.marketCapUSDOf stock quote cur rate = stock.marketCap * rate cur := by
  unfold Batch.marketCapUSDOf
  rw [Batch.chooseMarketCap_batch hcur hq hbr]
  dsimp only
  rw [if_pos ⟨hcur, by decide⟩]

theorem Batch.marketCapUSDOf_usd {stock : FMPBatchMarketCap} {quote : FMPQuote}
    {rate : String → ℚ} : Batch.marketCapUSDOf stock quote "USD" rate = stock.marketCap := by
  unfold Batch.marketCapUSDOf
  rw [Batch.chooseMarketCap_usd]
  rw [if_neg (by rintro ⟨hbad, -⟩; exact hbad rfl)]

theorem Batch.buildAsset_marketCap (stock : FMPBatchMarketCap) (quote : FMPQuote)
    (profileResult : Option FMPCompanyProfile) (rate : String → ℚ) :
    (Batch.buildAsset stock quote profileResult rate).marketCap =
      Batch.marketCapUSDOf stock quote (Batch.currencyOf stock quote profileResult) rate := rfl

/-- C1: for a non-USD security processed by the batch fetcher with a
positive quote-endpoint market cap, the emitted market cap is the
quote-endpoint figure unconverted when that figure is more than 10 times the
batch figure and above 100 billion dollars, and otherwise the batch figure
times the resolved exchange rate for the detected currency; for USD
securities the batch figure is used unchanged. -/
theorem c1_marketCap_reconciliation (stock : FMPBatchMarketCap) (quote : FMPQuote)
    (profileResult : Option FMPCompanyProfile) (rate : String → ℚ) (a : AssetData)
    (h : Batch.processStock stock (some quote) profileResult rate = some a) :
    (Batch.currencyOf stock quote profileResult ≠ "USD" → quote.marketCap > 0 →
      ((quote.marketCap / stock.marketCap > 10 ∧ quote.marketCap > 100000000000) →
          a.marketCap = quote.marketCap) ∧
        (¬(quote.marketCap / stock.marketCap > 10 ∧ quote.marketCap > 100000000000) →
          a.marketCap = stock.marketCap * rate (Batch.currencyOf stock quote profileResult))) ∧
    (Batch.currencyOf stock quote profileResult = "USD" → a.marketCap = stock.marketCap) := by
  obtain rfl := Batch.processStock_eq_some h
  rw [Batch.buildAsset_marketCap]
  constructor
  · intro hcur hq
    exact ⟨fun hbr => Batch.marketCapUSDOf_quote_branch hcur hq hbr,
      fun hbr => Batch.marketCapUSDOf_batch_branch hcur hq hbr⟩
  · intro hcur
    rw [hcur]
    exact Batch.marketCapUSDOf_usd

/-- Witness for C1: the quote branch fires on the Hong Kong row (ratio 12,
above 100 billion) and the batch-times-rate branch on the Saudi row. -/
theorem c1_witness :
    Batch.currencyOf hkBatchRow hkQuote none ≠ "USD" ∧
    hkQuote.marketCap > 0 ∧
    (hkQuote.marketCap / hkBatchRow.marketCap > 10 ∧ hkQuote.marketCap > 100000000000) ∧
    (Batch.buildAsset hkBatchRow hkQuote none (fun _ => 2)).marketCap = hkQuote.marketCap ∧
    Batch.currencyOf saudiBatchRow saudiQuote none ≠ "USD" ∧
    ¬(saudiQuote.marketCap / saudiBatchRow.marketCap > 10 ∧
        saudiQuote.marketCap > 100000000000) ∧
    (Batch.buildAsset saudiBatchRow saudiQuote none (fun _ => 2)).marketCap =
      saudiBatchRow.marketCap * 2 := by
  have hcur1 : Batch.currencyOf hkBatchRow hkQuote none = "HKD" := by decide
  have hcur2 : Batch.currencyOf saudiBatchRow saudiQuote none = "SAR" := by decide
  have hq1 : hkQuote.marketCap > 0 := by norm_num [hkQuote]
  have hbr1 : hkQuote.marketCap / hkBatchRow.marketCap > 10 ∧
      hkQuote.marketCap > 100000000000 := by
    constructor <;> norm_num [hkQuote, hkBatchRow]
  have hq2 : saudiQuote.marketCap > 0 := by norm_num [saudiQuote]
  have hbr2 : ¬(saudiQuote.marketCap / saudiBatchRow.marketCap > 10 ∧
      saudiQuote.marketCap > 100000000000) := by
    rintro ⟨hr, -⟩
    norm_num [saudiQuote, saudiBatchRow] at hr
  refine ⟨by rw [hcur1]; decide, hq1, hbr1, ?_, by rw [hcur2]; decide, hbr2, ?_⟩
  · exact (((c1_marketCap_reconciliation hkBatchRow hkQuote none (fun _ => 2) _ rfl).1
      (by rw [hcur1]; decide) hq1).1 hbr1)
  · have := (((c1_marketCap_reconciliation saudiBatchRow saudiQuote none (fun _ => 2) _
      rfl).1 (by rw [hcur2]; decide) hq2).2 hbr2)
    simpa using this

/-- C5 (amended): the batch fetcher keeps prices in the security's native
trading currency: every emitted record's current price and previous close
are the upstream quote values, unconverted (while its market cap is the USD
figure of the reconciliation heuristic); the screener variant instead
multiplies prices by the exchange rate as well. -/
theorem c5_currency_asymmetry_batch (stock : FMPBatchMarketCap) (quote : FMPQuote)
    (profileResult : Option FMPCompanyProfile) (rate : String → ℚ) (a : AssetData)
    (h : Batch.processStock stock (some quote) profileResult rate = some a) :
    a.currentPrice = quote.price ∧ a.previousClose = quote.previousClose := by
  obtain rfl := Batch.processStock_eq_some h
  exact ⟨rfl, rfl⟩

/-- Witness for C5 at the Hong Kong fixture. -/
theorem c5_witness :
    (Batch.buildAsset hkBatchRow hkQuote none (fun _ => 2)).currentPrice = hkQuote.price ∧
    (Batch.buildAsset hkBatchRow hkQuote none (fun _ => 2)).previousClose =
      hkQuote.previousClose :=
  c5_currency_asymmetry_batch hkBatchRow hkQuote none (fun _ => 2) _ rfl

/-- C5 counterexample: the screener variant multiplies the emitted current
price by the exchange rate, so for a non-USD security the emitted
current price differs from the upstream native-currency price. -/
theorem c5_counterexample :
    Screener.processStock tencentScreenerRow none none (fun _ => 2) =
      some (Screener.buildAsset tencentScreenerRow none none (fun _ => 2)) ∧
    tencentScreenerRow.price = 320 ∧
    (Screener.buildAsset tencentScreenerRow none none (fun _ => 2)).currentPrice = 640 ∧
    (Screener.buildAsset tencentScreenerRow none none (fun _ => 2)).currentPrice ≠
      tencentScreenerRow.price := by
  have hcur : Screener.detectCurrency tencentScreenerRow = "HKD" := by decide
  have hcap : Screener.marketCapUSDOf tencentScreenerRow (fun _ => 2) = 6000000000000 := by
    unfold Screener.marketCapUSDOf
    rw [hcur, if_pos (by decide)]
    norm_num [tencentScreenerRow]
  have hprice :
      (Screener.buildAsset tencentScreenerRow none none (fun _ => 2)).currentPrice = 640 := by
    show Screener.currentPriceOf tencentScreenerRow (fun _ => 2) = 640
    unfold Screener.currentPriceOf
    rw [hcur, if_pos (by decide)]
    norm_num [tencentScreenerRow]
  refine ⟨?_, rfl, hprice, by rw [hprice]; norm_num [tencentScreenerRow]⟩
  unfold Screener.processStock
  rw [if_neg (by decide), if_neg (by decide), if_neg (by decide),
    if_neg (by rw [hcap]; norm_num),
    if_neg (by rintro ⟨hjk, -⟩; revert hjk; decide)]

/-- C6 (amended): in the screener fetcher every emitted record's USD market
cap is at most 10 trillion dollars, records with a .JK symbol are emitted
only up to 100 billion dollars, and a 9.9-trillion USD record is retained;
the batch fetcher applies no such sanity filter. -/
theorem c6_sanity_filter_screener :
    (∀ stocks quotes profiles rate a,
      a ∈ Screener.processStocks stocks quotes profiles rate →
        a.marketCap ≤ 10000000000000 ∧
          (strEndsWith (strToUpper a.ticker) ".JK" = true →
            a.marketCap ≤ 100000000000)) ∧
    Screener.processStock megaCapRow none none (fun _ => 1) =
      some (Screener.buildAsset megaCapRow none none (fun _ => 1)) ∧
    (Screener.buildAsset megaCapRow none none (fun _ => 1)).marketCap = 9900000000000 := by
  refine ⟨?_, ?_, ?_⟩
  · intro stocks quotes profiles rate a h
    have h' := List.mem_of_mem_take h
    rcases List.mem_filterMap.mp h' with ⟨s, -, hs⟩
    unfold Screener.processStock at hs
    split_ifs at hs with g1 g2 g3 g4 g5
    obtain rfl : Screener.buildAsset s (quotes s.symbol) (profiles s.symbol) rate = a :=
      Option.some.inj hs
    constructor
    · exact le_of_not_lt g4
    · intro hjk
      by_contra hgt
      exact g5 ⟨hjk, lt_of_not_le hgt⟩
  · rfl
  · rfl

/-- Witness for C6 at the 9.9-trillion fixture fed through the processing
loop. -/
theorem c6_witness :
    (Screener.buildAsset megaCapRow none none (fun _ => 1)).marketCap ≤ 10000000000000 ∧
      (strEndsWith (strToUpper (Screener.buildAsset megaCapRow none none
          (fun _ => 1)).ticker) ".JK" = true →
        (Screener.buildAsset megaCapRow none none (fun _ => 1)).marketCap ≤
          100000000000) := by
  have hmem : Screener.buildAsset megaCapRow none none (fun _ => 1) ∈
      Screener.processStocks [megaCapRow] (fun _ => none) (fun _ => none) (fun _ => 1) := by
    have hps : Screener.processStocks [megaCapRow] (fun _ => none) (fun _ => none)
        (fun _ => 1) = [Screener.buildAsset megaCapRow none none (fun _ => 1)] := rfl
    rw [hps]
    exact List.mem_singleton_self _
  exact c6_sanity_filter_screener.1 [megaCapRow] (fun _ => none) (fun _ => none)
    (fun _ => 1) _ hmem

/-- C6 counterexample: the batch fetcher emits a record with a computed USD
market cap of 15 trillion dollars, and that record reaches the final asset
list, so records above 10 trillion are not dropped there. -/
theorem c6_counterexample :
    Batch.processStock hugeBatchRow (some hugeQuote) none (fun _ => 1) =
      some (Batch.buildAsset hugeBatchRow hugeQuote none (fun _ => 1)) ∧
    (Batch.buildAsset hugeBatchRow hugeQuote none (fun _ => 1)).marketCap =
      15000000000000 ∧
    (15000000000000 : ℚ) > 10000000000000 ∧
    Batch.buildAsset hugeBatchRow hugeQuote none (fun _ => 1) ∈
      Batch.finalAssets [Batch.buildAsset hugeBatchRow hugeQuote none (fun _ => 1)] := by
  have hcur : Batch.currencyOf hugeBatchRow hugeQuote none = "USD" := by decide
  refine ⟨rfl, ?_, by decide, ?_⟩
  · rw [Batch.buildAsset_marketCap, hcur, Batch.marketCapUSDOf_usd]
    rfl
  · decide

theorem escapeJSONChar_plain {c : Char} (h1 : 0x20 ≤ c.toNat) (h2 : c ≠ '"')
    (h3 : c ≠ '\\') (h4 : c.toNat ≠ 0x2028) (h5 : c.toNat ≠ 0x2029) :
    escapeJSONChar false c = [c] := by
  unfold escapeJSONChar
  by_cases hc : c.toNat < 0x80
  · rw [if_pos hc, if_pos]
    simp [jsonSafeChar, h1, h2, h3]
  · rw [if_neg hc, if_neg h4, if_neg h5]

theorem flatten_escape_plain (l : List Char)
    (h : ∀ c ∈ l, 0x20 ≤ c.toNat ∧ c ≠ '"' ∧ c ≠ '\\' ∧ c.toNat ≠ 0x2028 ∧
      c.toNat ≠ 0x2029) :
    (l.map (escapeJSONChar false)).flatten = l := by
  induction l with
  | nil => rfl
  | cons c rest ih =>
    rcases h c (List.mem_cons_self c rest) with ⟨h1, h2, h3, h4, h5⟩
    simp only [List.map_cons, List.flatten_cons,
      escapeJSONChar_plain h1 h2 h3 h4 h5,
      ih (fun x hx => h x (List.mem_cons_of_mem c hx))]
    rfl

theorem jsonEncodeString_plain (s : String)
    (h : ∀ c ∈ s.data, 0x20 ≤ c.toNat ∧ c ≠ '"' ∧ c ≠ '\\' ∧ c.toNat ≠ 0x2028 ∧
      c.toNat ≠ 0x2029) :
    jsonEncodeString false s = "\"" ++ s ++ "\"" := by
  unfold jsonEncodeString
  rw [flatten_escape_plain s.data h]
  rfl

/-- C9 (amended): the batch variant's saveToJSON disables HTML escaping and
indents with two spaces, so every name made of ordinary printable characters
(including accented letters, ampersand, less-than and greater-than) is
written literally; the screener variant's saveToJSON never disables Go's
default HTML escaping. -/
theorem c9_json_encoding_batch (s : String)
    (h : ∀ c ∈ s.data, 0x20 ≤ c.toNat ∧ c ≠ '"' ∧ c ≠ '\\' ∧ c.toNat ≠ 0x2028 ∧
      c.toNat ≠ 0x2029) :
    Batch.encodeNameJSON s = "\"" ++ s ++ "\"" ∧ Batch.jsonIndent = "  " :=
  ⟨jsonEncodeString_plain s h, rfl⟩

/-- Witness for C9 at a name with accented letters and HTML-special
characters. -/
theorem c9_witness :
    Batch.encodeNameJSON "Société & Générale <Co>" = "\"Société & Générale <Co>\"" ∧
      Batch.jsonIndent = "  " :=
  c9_json_encoding_batch "Société & Générale <Co>" (by decide)

/-- C9 counterexample: the screener variant leaves HTML escaping enabled, so
an ampersand in a company name is written as an escape sequence rather than
literally. -/
theorem c9_counterexample :
    Screener.encodeNameJSON "A&B" = "\"A\\u0026B\"" ∧
    Screener.encodeNameJSON "A&B" ≠ "\"A&B\"" ∧
    Screener.jsonIndent = "  " := by
  refine ⟨by decide, by decide, rfl⟩
